import Mathlib

/-!
Shallow embedding of the memory-mcp conversation orchestrator
(src/orchestrator.ts) and its store adapter (db.ts).

Modelling conventions:
- JavaScript numbers that hold word counts are embedded as Nat; the
  running `totalWordCount` (which the code decrements) is embedded as Int.
- Threshold comparisons (`usageRatio < 0.8` etc.) are embedded over Rat,
  which agrees with IEEE double comparison for the integer word counts and
  capacities the orchestrator manipulates.
- Wall-clock reads (`new Date().getHours()`, timestamps) are passed in as
  explicit `hour` / `now` parameters.
- The Mongo collection is a list of documents; `ObjectId` is a Nat and
  fresh ids are assigned from the current store length.
-/

/-- Code points of the whitespace characters recognised by the JavaScript
regular expression class backslash-s, used by all `split` calls in the
source: space, tab, line feed, vertical tab, form feed, carriage return,
no-break space, ogham space mark, the en-quad .. hair-space range, line and
paragraph separators, narrow no-break space, medium mathematical space,
ideographic space, and the byte order mark. -/
def wsCodes : List Nat :=
  [0x20, 0x9, 0xa, 0xb, 0xc, 0xd, 0xa0, 0x1680,
   0x2000, 0x2001, 0x2002, 0x2003, 0x2004, 0x2005, 0x2006, 0x2007,
   0x2008, 0x2009, 0x200a, 0x2028, 0x2029, 0x202f, 0x205f, 0x3000, 0xfeff]

def isWs (c : Char) : Bool := wsCodes.contains c.toNat

/-- Core loop of `text.split(/\s+/)`: walks the characters, emitting the
piece accumulated so far whenever a new whitespace run starts.  `inRun`
records whether the previous character was part of a whitespace run. -/
def splitWsGo (inRun : Bool) (cur : List Char) : List Char → List String
  | [] => [String.mk cur.reverse]
  | c :: cs =>
    if isWs c then
      if inRun then splitWsGo true cur cs
      else String.mk cur.reverse :: splitWsGo true [] cs
    else splitWsGo false (c :: cur) cs

/-- JavaScript `text.split(/\s+/)`.  Leading and trailing whitespace runs
produce empty pieces, exactly as in JavaScript; the empty string yields a
single empty piece. -/
def jsSplitWs (s : String) : List String := splitWsGo false [] s.data

/-- JavaScript `text.toLowerCase()` (code-point wise lowering). -/
def jsToLower (s : String) : String := String.mk (s.data.map Char.toLower)

/-- JavaScript `array.join(sep)`. -/
def jsJoin (sep : String) : List String → String
  | [] => ""
  | [x] => x
  | x :: y :: rest => x ++ sep ++ jsJoin sep (y :: rest)

/-- Helper for `hay.includes(needle)`: needle occurs starting at some
suffix of the haystack. -/
def containsTokAux (needle : List Char) : List Char → Bool
  | [] => needle.isEmpty
  | c :: cs => needle.isPrefixOf (c :: cs) || containsTokAux needle cs

/-- JavaScript `hay.includes(needle)` for strings. -/
def jsIncludes (hay needle : String) : Bool := containsTokAux needle.data hay.data

/-- `getWordCount` from orchestrator.ts: `text.split(/\s+/).length`. -/
def getWordCount (s : String) : Nat := (jsSplitWs s).length

/-- Sum of the word counts of a list of messages. -/
def wcSum (l : List String) : Nat := (l.map getWordCount).sum

/-- `contextType` values stored in the collection. -/
inductive ContextType where
  | active
  | archived
  | summary
deriving DecidableEq

/-- A document of the `memories` collection (interface `Memory` in db.ts).
`id` stands in for the Mongo ObjectId, `timestamp` for the Date. -/
structure Memory where
  id : Option Nat := none
  memories : List String
  timestamp : Nat := 0
  llm : String := ""
  userId : Option String := none
  conversationId : Option String := none
  contextType : Option ContextType := none
  relevanceScore : Option Rat := none
  tags : Option (List String) := none
  parentContextId : Option Nat := none
  messageIndex : Option Nat := none
  wordCount : Option Nat := none
  summaryText : Option String := none
deriving DecidableEq

/-- The persistent collection. -/
abbrev Store := List Memory

/-- Interface `ConversationState` in orchestrator.ts. -/
structure ConversationState where
  conversationId : String
  currentContext : List String
  archivedContext : List Memory
  summaries : List Memory
  totalWordCount : Int
  maxWordCount : Nat
  llm : String
  userId : Option String
deriving DecidableEq

/-- Interface `ArchiveDecision`. -/
structure ArchiveDecision where
  shouldArchive : Bool
  messagesToArchive : List String
  tags : List String
  reason : String
deriving DecidableEq

/-- Interface `RetrievalDecision`. -/
structure RetrievalDecision where
  shouldRetrieve : Bool
  contextToRetrieve : List Memory
  reason : String
deriving DecidableEq

/-- The usage ratio `state.totalWordCount / state.maxWordCount`. -/
def usageRatio (s : ConversationState) : Rat :=
  (s.totalWordCount : Rat) / (s.maxWordCount : Rat)

/-- Fixed keyword vocabulary of `generateTags`. -/
def keywords : List String :=
  ["code", "programming", "technical", "api", "database",
   "frontend", "backend", "design", "ui", "ux",
   "user", "interface", "data", "analysis", "research",
   "writing", "content", "creative", "business", "strategy", "planning"]

/-- Time-of-day tag pushed by `generateTags` from `new Date().getHours()`. -/
def timeTag (hour : Nat) : String :=
  if hour < 12 then "morning" else if hour < 18 then "afternoon" else "evening"

/-- `generateTags` from orchestrator.ts; `hour` models the wall clock. -/
def generateTags (messages : List String) (hour : Nat) : List String :=
  let allText := jsToLower (jsJoin " " messages)
  let tags := keywords.filter (fun k => jsIncludes allText k)
  let tags2 := tags ++ [timeTag hour]
  if tags2.length > 0 then tags2 else ["general"]

/-- Filter `conversationId = cid AND contextType = archived` used by
`scoreRelevance` in db.ts. -/
def archFilter (cid : String) (m : Memory) : Bool :=
  decide (m.conversationId = some cid ∧ m.contextType = some ContextType.archived)

/-- The Mongo filter of `retrieveContext`: conversation, archived type,
`relevanceScore` greater-or-equal the floor (documents missing the field do
not match), and an optional tag filter. -/
def relFilter (cid : String) (tagsQ : Option (List String)) (minScore : Rat)
    (m : Memory) : Bool :=
  archFilter cid m &&
  (match m.relevanceScore with
   | some r => decide (minScore ≤ r)
   | none => false) &&
  (match tagsQ with
   | none => true
   | some ts => ts.isEmpty || (m.tags.getD []).any (fun t => ts.contains t))

/-- Sort key of `retrieveContext`: relevance score descending, then
timestamp descending. -/
def memBefore (a b : Memory) : Bool :=
  decide (b.relevanceScore.getD 0 < a.relevanceScore.getD 0 ∨
    (a.relevanceScore.getD 0 = b.relevanceScore.getD 0 ∧ b.timestamp ≤ a.timestamp))

def insertByRel (m : Memory) : List Memory → List Memory
  | [] => [m]
  | x :: xs => if memBefore m x then m :: x :: xs else x :: insertByRel m xs

def sortByRel (l : List Memory) : List Memory := l.foldr insertByRel []

/-- `retrieveContext` from db.ts: filter, sort by score then recency, cap. -/
def retrieveContext (cid : String) (tagsQ : Option (List String))
    (minScore : Rat) (limit : Nat) (store : Store) : List Memory :=
  (sortByRel (List.filter (relFilter cid tagsQ minScore) store)).take limit

/-- Token set of a text: `new Set(text.toLowerCase().split(/\s+/))`. -/
def tokenSet (s : String) : Finset String := (jsSplitWs (jsToLower s)).toFinset

/-- Jaccard overlap `|intersection| / |union|` of two token sets. -/
def jaccard (a b : Finset String) : Rat :=
  ((a ∩ b).card : Rat) / ((a ∪ b).card : Rat)

/-- `scoreRelevance` from db.ts: loads the archived items of the
conversation, and when there are any, overwrites each of their relevance
scores with the Jaccard overlap against the current context text.  Returns
the number of items scored together with the updated store. -/
def scoreRelevance (cid : String) (currentContext : String) (_llm : String)
    (store : Store) : Nat × Store :=
  let archived := List.filter (archFilter cid) store
  if archived.isEmpty then (0, store)
  else
    let currentWords := tokenSet currentContext
    (archived.length,
     store.map (fun m =>
       if archFilter cid m then
         let sc := jaccard currentWords (tokenSet (jsJoin " " m.memories))
         { m with relevanceScore := some sc }
       else m))

/-- One freshly archived document built by `archiveContext`. -/
def mkArchived (cid : String) (llm : String) (userId : Option String)
    (tags : List String) (now : Nat) (freshId : Nat) (idx : Nat)
    (message : String) : Memory :=
  { id := some freshId
    memories := [message]
    timestamp := now
    llm := llm
    userId := userId
    conversationId := some cid
    contextType := some ContextType.archived
    tags := some tags
    messageIndex := some idx
    wordCount := some (getWordCount message) }

/-- `archiveContext` from db.ts: inserts one archived document per message
and returns the inserted count. -/
def archiveContext (cid : String) (messages : List String) (tags : List String)
    (llm : String) (userId : Option String) (now : Nat) (store : Store) :
    Nat × Store :=
  let docs := messages.enum.map
    (fun p => mkArchived cid llm userId tags now (store.length + p.1) p.1 p.2)
  (docs.length, store ++ docs)

/-- `createSummary` from db.ts: inserts the summary document, then patches
the summarized items (those that carry an id) to archived type with a
back-reference to the summary. -/
def dbCreateSummary (cid : String) (items : List Memory) (summaryText : String)
    (llm : String) (userId : Option String) (now : Nat) (store : Store) :
    Nat × Store :=
  let sid := store.length
  let doc : Memory :=
    { id := some sid
      memories := [summaryText]
      timestamp := now
      llm := llm
      userId := userId
      conversationId := some cid
      contextType := some ContextType.summary
      summaryText := some summaryText
      wordCount := some (getWordCount summaryText) }
  let store1 := store ++ [doc]
  let itemIds := items.filterMap (fun m => m.id)
  let store2 :=
    if itemIds.isEmpty then store1
    else store1.map (fun m =>
      match m.id with
      | some i =>
        if itemIds.contains i then
          { m with contextType := some ContextType.archived,
                   parentContextId := some sid }
        else m
      | none => m)
  (sid, store2)

/-- `ARCHIVE_THRESHOLD` constant. -/
def archiveThreshold : Rat := 0.8

/-- `RETRIEVE_THRESHOLD` constant. -/
def retrieveThreshold : Rat := 0.3

/-- The zeroed state built by `initializeConversation` for an unseen
conversation id (`maxWords` is the orchestrator capacity). -/
def initState (cid llm : String) (userId : Option String) (maxWords : Nat) :
    ConversationState :=
  { conversationId := cid
    currentContext := []
    archivedContext := []
    summaries := []
    totalWordCount := 0
    maxWordCount := maxWords
    llm := llm
    userId := userId }

/-- `shouldArchive` from orchestrator.ts.  Below the 0.8 threshold the
decision is a no-op; otherwise the oldest `floor(0.3 * length)` messages
are selected and tagged.  `hour` models the wall clock read inside
`generateTags`; the decimal formatting of the reason percentage is
abbreviated to `toString`. -/
def shouldArchive (hour : Nat) (s : ConversationState) : ArchiveDecision :=
  if usageRatio s < archiveThreshold then
    { shouldArchive := false
      messagesToArchive := []
      tags := []
      reason := "Below archive threshold" }
  else
    let batch := s.currentContext.take (s.currentContext.length * 3 / 10)
    { shouldArchive := true
      messagesToArchive := batch
      tags := generateTags batch hour
      reason := "Context usage at " ++ toString (usageRatio s * 100) ++
        "%, archiving oldest " ++ toString batch.length ++ " messages" }

/-- `shouldRetrieve` from orchestrator.ts.  Above the 0.3 threshold the
decision is a no-op and the store is untouched; otherwise the archived
items are first re-scored (a store write), then up to 5 items with
relevance at least 0.2 are fetched. -/
def shouldRetrieve (s : ConversationState) (store : Store) :
    RetrievalDecision × Store :=
  if retrieveThreshold < usageRatio s then
    ({ shouldRetrieve := false
       contextToRetrieve := []
       reason := "Above retrieve threshold" }, store)
  else
    let currentContextText := jsJoin " " s.currentContext
    let store1 := (scoreRelevance s.conversationId currentContextText s.llm store).2
    let relevantContext := retrieveContext s.conversationId none 0.2 5 store1
    if relevantContext.isEmpty then
      ({ shouldRetrieve := false
         contextToRetrieve := []
         reason := "No relevant archived content found" }, store1)
    else
      ({ shouldRetrieve := true
         contextToRetrieve := relevantContext
         reason := "Context usage low, retrieving " ++
           toString relevantContext.length ++ " relevant archived items" }, store1)

/-- `executeArchive` from orchestrator.ts: no-op on a negative decision;
otherwise persists the batch, drops the batch-length prefix from the
window and subtracts the summed word count of the batch. -/
def executeArchive (decision : ArchiveDecision) (s : ConversationState)
    (store : Store) (now : Nat) : ConversationState × Store :=
  if decision.shouldArchive then
    let store2 := (archiveContext s.conversationId decision.messagesToArchive
      decision.tags s.llm s.userId now store).2
    ({ s with
        currentContext := s.currentContext.drop decision.messagesToArchive.length
        totalWordCount := s.totalWordCount - (wcSum decision.messagesToArchive : Int) },
     store2)
  else (s, store)

/-- Body of the `executeRetrieval` loop: joins one retrieved item and
unshifts it onto the window, adding its word count. -/
def pushRetrieved (st : ConversationState) (item : Memory) : ConversationState :=
  let content := jsJoin " " item.memories
  { st with
      currentContext := content :: st.currentContext
      totalWordCount := st.totalWordCount + (getWordCount content : Int) }

/-- `executeRetrieval` from orchestrator.ts: no-op on a negative decision;
otherwise sequentially prepends each retrieved item. -/
def executeRetrieval (decision : RetrievalDecision) (s : ConversationState) :
    ConversationState :=
  if decision.shouldRetrieve then decision.contextToRetrieve.foldl pushRetrieved s
  else s

/-- Recommendation strings of `getConversationStatus`. -/
def recNearlyFull : String :=
  "⚠️ Context window nearly full - consider archiving more content"

def recArchiveOlder : String :=
  "📝 Consider archiving older messages to free up space"

def recRetrieveSpace : String :=
  "🔍 Context window has space - consider retrieving relevant archived content"

def recSummaries : String :=
  "📋 Consider creating summaries of archived content"

/-- Recommendation list built by `getConversationStatus`: at most one
usage-ratio band fires, plus the independent archived-count check. -/
def getConversationStatus (s : ConversationState) : List String :=
  let usage := usageRatio s
  (if (0.9 : Rat) < usage then [recNearlyFull]
   else if (0.7 : Rat) < usage then [recArchiveOlder]
   else if usage < (0.2 : Rat) then [recRetrieveSpace]
   else []) ++
  (if 20 < s.archivedContext.length then [recSummaries] else [])

/-- The two error kinds thrown by the orchestrator `createSummary`. -/
inductive SummErr where
  | notFound
  | nothingToSummarize
deriving DecidableEq

/-- `createSummary` from orchestrator.ts over the conversation map and the
store: not-found when the id was never initialised, nothing-to-summarize
when no archived item passes the 0.1 relevance floor; otherwise the store
summary is created.  Returns the outcome together with the store. -/
def orchCreateSummary (convs : String → Option ConversationState)
    (cid summaryText llm : String) (userId : Option String) (now : Nat)
    (store : Store) : Except SummErr Nat × Store :=
  match convs cid with
  | none => (Except.error SummErr.notFound, store)
  | some _ =>
    let archivedItems := retrieveContext cid none 0.1 10 store
    if archivedItems.isEmpty then (Except.error SummErr.nothingToSummarize, store)
    else
      let r := dbCreateSummary cid archivedItems summaryText llm userId now store
      (Except.ok r.1, r.2)

/-- Public operations on one conversation.  `hour` and `now` model wall
clock reads; each execute operation applies the decision computed from the
state it is applied to (no interleaving). -/
inductive Op where
  | initConv
  | addMsg (msg : String) (hour : Nat)
  | execArchive (hour now : Nat)
  | execRetrieve

/-- One public operation on the (conversation state, store) pair.
`addMsg` mirrors `addMessage`: append, account the word count, then
evaluate both policies (the retrieve policy may re-score the store). -/
def stepOp (p : ConversationState × Store) : Op → ConversationState × Store
  | Op.initConv => p
  | Op.addMsg msg hour =>
    let s1 := { p.1 with
        currentContext := p.1.currentContext ++ [msg]
        totalWordCount := p.1.totalWordCount + (getWordCount msg : Int) }
    let _archiveDecision := shouldArchive hour s1
    let retr := shouldRetrieve s1 p.2
    (s1, retr.2)
  | Op.execArchive hour now => executeArchive (shouldArchive hour p.1) p.1 p.2 now
  | Op.execRetrieve =>
    let retr := shouldRetrieve p.1 p.2
    (executeRetrieval retr.1 p.1, retr.2)

/-- Run a sequence of public operations from a fresh conversation. -/
def runOps (cid llm : String) (userId : Option String) (maxWords : Nat)
    (ops : List Op) (store0 : Store) : ConversationState × Store :=
  ops.foldl stepOp (initState cid llm userId maxWords, store0)

/-! Helper lemmas about word counting and the retrieval loop. -/

theorem wcSum_nil : wcSum [] = 0 := rfl

theorem wcSum_cons (a : String) (l : List String) :
    wcSum (a :: l) = getWordCount a + wcSum l := by
  simp [wcSum]

theorem wcSum_append (a b : List String) : wcSum (a ++ b) = wcSum a + wcSum b := by
  simp [wcSum]

theorem wcSum_reverse (l : List String) : wcSum l.reverse = wcSum l := by
  simp [wcSum, List.map_reverse, List.sum_reverse]

theorem wcSum_take_add_drop (l : List String) (n : Nat) :
    wcSum (l.take n) + wcSum (l.drop n) = wcSum l := by
  conv_rhs => rw [← List.take_append_drop n l]
  rw [wcSum_append]

theorem drop_take_length (l : List String) (k : Nat) :
    l.drop (l.take k).length = l.drop k := by
  have h := List.drop_left (l.take k) (l.drop k)
  rwa [List.take_append_drop] at h

/-- The retrieval loop as one state update: the joined items end up
reversed in front of the window, and their summed word count is added. -/
theorem foldl_pushRetrieved (items : List Memory) (s : ConversationState) :
    items.foldl pushRetrieved s =
      { s with
          currentContext :=
            (items.map (fun m => jsJoin " " m.memories)).reverse ++ s.currentContext
          totalWordCount := s.totalWordCount +
            (wcSum (items.map (fun m => jsJoin " " m.memories)) : Int) } := by
  induction items generalizing s with
  | nil => cases s; simp [wcSum]
  | cons i is ih =>
    rw [List.foldl_cons, ih]
    cases s
    simp [pushRetrieved, wcSum_cons, List.reverse_cons, List.append_assoc]
    ring

/-- C2: the archive policy decision evaluated during addMessage has
shouldArchive = true exactly when the usage ratio reaches 0.8, and below
0.8 it is the no-op decision with an empty batch. -/
theorem c2_archive_threshold_iff (hour : Nat) (s : ConversationState)
    (hm : 0 < s.maxWordCount) :
    ((shouldArchive hour s).shouldArchive = true ↔ (0.8 : Rat) ≤ usageRatio s) ∧
    (usageRatio s < (0.8 : Rat) →
      shouldArchive hour s =
        { shouldArchive := false
          messagesToArchive := []
          tags := []
          reason := "Below archive threshold" }) := by
  constructor
  · unfold shouldArchive archiveThreshold
    split_ifs with h
    · simpa using not_le.mpr h
    · simpa using not_lt.mp h
  · intro hlt
    unfold shouldArchive
    rw [if_pos]
    exact hlt

def c2wState : ConversationState :=
  { conversationId := "c", currentContext := ["a b c d e f g h"],
    archivedContext := [], summaries := [], totalWordCount := 8,
    maxWordCount := 10, llm := "m", userId := none }

theorem c2_archive_threshold_iff_witness :
    0 < c2wState.maxWordCount ∧
    ((((shouldArchive 10 c2wState).shouldArchive = true ↔
        (0.8 : Rat) ≤ usageRatio c2wState)) ∧
      (usageRatio c2wState < (0.8 : Rat) →
        shouldArchive 10 c2wState =
          { shouldArchive := false
            messagesToArchive := []
            tags := []
            reason := "Below archive threshold" })) :=
  ⟨by decide, c2_archive_threshold_iff 10 c2wState (by decide)⟩

/-- C3: executeRetrieval on a positive three-item decision ordered highest
relevance first prepends sequentially, so the final window is the joined
items in reverse decision order followed by the untouched original window. -/
theorem c3_executeRetrieval_order (s : ConversationState) (a b c : Memory)
    (reason : String)
    (ha : a.relevanceScore = some (0.9 : Rat))
    (hb : b.relevanceScore = some (0.7 : Rat))
    (hc : c.relevanceScore = some (0.5 : Rat)) :
    (executeRetrieval
        { shouldRetrieve := true, contextToRetrieve := [a, b, c], reason := reason }
        s).currentContext =
      jsJoin " " c.memories :: jsJoin " " b.memories :: jsJoin " " a.memories ::
        s.currentContext := rfl

def c3wA : Memory := { memories := ["alpha"], relevanceScore := some 0.9 }
def c3wB : Memory := { memories := ["beta"], relevanceScore := some 0.7 }
def c3wC : Memory := { memories := ["gamma"], relevanceScore := some 0.5 }

def c3wState : ConversationState :=
  { conversationId := "c", currentContext := ["orig"],
    archivedContext := [], summaries := [], totalWordCount := 1,
    maxWordCount := 8000, llm := "m", userId := none }

theorem c3_executeRetrieval_order_witness :
    c3wA.relevanceScore = some (0.9 : Rat) ∧
    c3wB.relevanceScore = some (0.7 : Rat) ∧
    c3wC.relevanceScore = some (0.5 : Rat) ∧
    (executeRetrieval
        { shouldRetrieve := true, contextToRetrieve := [c3wA, c3wB, c3wC],
          reason := "r" }
        c3wState).currentContext =
      jsJoin " " c3wC.memories :: jsJoin " " c3wB.memories ::
        jsJoin " " c3wA.memories :: c3wState.currentContext :=
  ⟨rfl, rfl, rfl,
    c3_executeRetrieval_order c3wState c3wA c3wB c3wC "r" rfl rfl rfl⟩

def c4cexDecision : RetrievalDecision :=
  { shouldRetrieve := true, contextToRetrieve := [c3wA, c3wB, c3wC], reason := "r" }

def c4cexState : ConversationState :=
  { conversationId := "c", currentContext := [],
    archivedContext := [], summaries := [], totalWordCount := 0,
    maxWordCount := 8000, llm := "m", userId := none }

/-- C4 fails on the code: with items ordered highest relevance first
(alpha 0.9, beta 0.7, gamma 0.5), the sequential prepends leave the
LOWEST-relevance item at the front of the window, and the highest-relevance
item deepest among the inserted ones. -/
theorem c4_counterexample :
    c3wA.relevanceScore = some (0.9 : Rat) ∧
    c3wB.relevanceScore = some (0.7 : Rat) ∧
    c3wC.relevanceScore = some (0.5 : Rat) ∧
    (executeRetrieval c4cexDecision c4cexState).currentContext =
      ["gamma", "beta", "alpha"] ∧
    (executeRetrieval c4cexDecision c4cexState).currentContext.head? =
      some (jsJoin " " c3wC.memories) ∧
    jsJoin " " c3wC.memories ≠ jsJoin " " c3wA.memories :=
  ⟨rfl, rfl, rfl, rfl, rfl, by decide⟩

/-- C4 amended: after all sequential prepends the final window is the
reversed list of joined items in front of the original window, so the LAST
(lowest-relevance) item of the decision list ends up closest to the front,
and the highest-relevance item ends up deepest among the inserted items. -/
theorem c4_amended_reverse_order (d : RetrievalDecision) (s : ConversationState)
    (hd : d.shouldRetrieve = true) :
    (executeRetrieval d s).currentContext =
      (d.contextToRetrieve.map (fun m => jsJoin " " m.memories)).reverse ++
        s.currentContext ∧
    (d.contextToRetrieve ≠ [] →
      (executeRetrieval d s).currentContext.head? =
        d.contextToRetrieve.getLast?.map (fun m => jsJoin " " m.memories)) := by
  have h1 : (executeRetrieval d s).currentContext =
      (d.contextToRetrieve.map (fun m => jsJoin " " m.memories)).reverse ++
        s.currentContext := by
    unfold executeRetrieval
    rw [if_pos (by simp [hd]), foldl_pushRetrieved]
  refine ⟨h1, fun hne => ?_⟩
  rw [h1]
  have hmr : d.contextToRetrieve.getLast?.map (fun m => jsJoin " " m.memories) =
      ((d.contextToRetrieve.map (fun m => jsJoin " " m.memories)).reverse).head? := by
    rw [List.head?_reverse, List.getLast?_map]
  rw [hmr]
  have hne2 : (d.contextToRetrieve.map (fun m => jsJoin " " m.memories)).reverse ≠ [] := by
    simp [hne]
  cases hvw : (d.contextToRetrieve.map (fun m => jsJoin " " m.memories)).reverse with
  | nil => exact absurd hvw hne2
  | cons y ys => simp

theorem c4_amended_reverse_order_witness :
    c4cexDecision.shouldRetrieve = true ∧
    ((executeRetrieval c4cexDecision c4cexState).currentContext =
      (c4cexDecision.contextToRetrieve.map (fun m => jsJoin " " m.memories)).reverse ++
        c4cexState.currentContext ∧
    (c4cexDecision.contextToRetrieve ≠ [] →
      (executeRetrieval c4cexDecision c4cexState).currentContext.head? =
        c4cexDecision.contextToRetrieve.getLast?.map (fun m => jsJoin " " m.memories))) :=
  ⟨rfl, c4_amended_reverse_order c4cexDecision c4cexState rfl⟩

/-- C5 fails on the code: on a batch with no vocabulary match the tag
generator does NOT return the single tag general — the time-of-day tag is
always pushed first, so the result is the time-of-day tag alone (here at
hour 10, morning). -/
theorem c5_counterexample :
    generateTags ["hello"] 10 = ["morning"] ∧
    generateTags ["hello"] 10 ≠ ["general"] ∧
    timeTag 10 = "morning" := by
  decide

/-- C5 amended: on a batch whose lowercased concatenation contains no term
of the keyword vocabulary, the tag generator returns exactly the single
time-of-day tag; the general fallback is unreachable because the
time-of-day tag is always appended, and the time tag is never the string
general. -/
theorem c5_amended_sole_time_tag (messages : List String) (hour : Nat)
    (h : ∀ k ∈ keywords, jsIncludes (jsToLower (jsJoin " " messages)) k = false) :
    generateTags messages hour = [timeTag hour] ∧ timeTag hour ≠ "general" := by
  constructor
  · unfold generateTags
    have hf : keywords.filter
        (fun k => jsIncludes (jsToLower (jsJoin " " messages)) k) = [] := by
      rw [List.filter_eq_nil]
      intro k hk
      simp [h k hk]
    simp [hf]
  · unfold timeTag
    split_ifs <;> decide

theorem c5_amended_sole_time_tag_witness :
    (∀ k ∈ keywords, jsIncludes (jsToLower (jsJoin " " ["hello"])) k = false) ∧
    (generateTags ["hello"] 14 = [timeTag 14] ∧ timeTag 14 ≠ "general") :=
  ⟨by decide, c5_amended_sole_time_tag ["hello"] 14 (by decide)⟩

/-! Frame lemmas for the retrieve policy evaluation. -/

/-- Above the retrieve threshold, policy evaluation leaves the store as is. -/
theorem shouldRetrieve_store_above (s : ConversationState) (store : Store)
    (h : retrieveThreshold < usageRatio s) :
    (shouldRetrieve s store).2 = store := by
  unfold shouldRetrieve
  rw [if_pos h]

/-- At or below the retrieve threshold, the store returned by policy
evaluation is the one produced by the re-scoring pass. -/
theorem shouldRetrieve_store_below (s : ConversationState) (store : Store)
    (h : ¬ retrieveThreshold < usageRatio s) :
    (shouldRetrieve s store).2 =
      (scoreRelevance s.conversationId (jsJoin " " s.currentContext) s.llm store).2 := by
  simp only [shouldRetrieve]
  rw [if_neg h]
  split <;> rfl

/-- Policy evaluation on an empty store never changes the store. -/
theorem shouldRetrieve_store_nil (s : ConversationState) :
    (shouldRetrieve s []).2 = [] := by
  by_cases h : retrieveThreshold < usageRatio s
  · exact shouldRetrieve_store_above s [] h
  · rw [shouldRetrieve_store_below s [] h]
    rfl

/-- A document with its relevance score blanked out; used to state that
re-scoring touches nothing but the score. -/
def eraseScore (m : Memory) : Memory := { m with relevanceScore := none }

/-- Re-scoring only rewrites relevance scores: blanking the scores of the
store after `scoreRelevance` gives the same documents as blanking before. -/
theorem scoreRelevance_frame (cid text llm : String) (store : Store) :
    ((scoreRelevance cid text llm store).2).map eraseScore = store.map eraseScore := by
  simp only [scoreRelevance]
  split
  · rfl
  · simp only [List.map_map]
    have hcomp : (eraseScore ∘ fun m =>
        if archFilter cid m then
          let sc := jaccard (tokenSet text) (tokenSet (jsJoin " " m.memories))
          { m with relevanceScore := some sc }
        else m) = eraseScore := by
      funext m
      simp only [Function.comp]
      split <;> rfl
    rw [hcomp]

theorem scoreRelevance_length (cid text llm : String) (store : Store) :
    ((scoreRelevance cid text llm store).2).length = store.length := by
  simp only [scoreRelevance]
  split
  · rfl
  · simp

def c6cexMem : Memory :=
  { id := some 0, memories := ["hello there"], llm := "m",
    conversationId := some "c", contextType := some ContextType.archived }

def c6cexState : ConversationState :=
  { conversationId := "c", currentContext := ["hi"],
    archivedContext := [], summaries := [], totalWordCount := 1,
    maxWordCount := 100, llm := "m", userId := none }

/-- C6 fails on the code: evaluating the retrieve policy on a state with a
low usage ratio re-scores the archived items, writing a relevance score
into the persistent store — the store after evaluation differs from the
store before. -/
theorem c6_counterexample :
    (shouldRetrieve c6cexState [c6cexMem]).2 ≠ [c6cexMem] := by
  have hr : ¬ retrieveThreshold < usageRatio c6cexState := by
    unfold retrieveThreshold usageRatio c6cexState
    norm_num
  rw [shouldRetrieve_store_below c6cexState [c6cexMem] hr]
  have hs : (scoreRelevance c6cexState.conversationId
        (jsJoin " " c6cexState.currentContext) c6cexState.llm [c6cexMem]).2 =
      [{ c6cexMem with
           relevanceScore := some (jaccard
             (tokenSet (jsJoin " " c6cexState.currentContext))
             (tokenSet (jsJoin " " c6cexMem.memories))) }] := rfl
  rw [hs]
  intro hcontra
  rw [List.cons.injEq] at hcontra
  have hfield := congrArg Memory.relevanceScore hcontra.1
  simp [c6cexMem] at hfield

/-- C6 amended: evaluating the retrieve policy never mutates the in-memory
conversation state (the decision is computed from it, it is not written),
but it may update the persistent store: the store after evaluation has the
same number of documents and only relevance scores may differ — blanking
the scores recovers the original store. -/
theorem c6_amended_store_frame (s : ConversationState) (store : Store) :
    ((shouldRetrieve s store).2).map eraseScore = store.map eraseScore ∧
    ((shouldRetrieve s store).2).length = store.length := by
  by_cases h : retrieveThreshold < usageRatio s
  · rw [shouldRetrieve_store_above s store h]
    exact ⟨rfl, rfl⟩
  · rw [shouldRetrieve_store_below s store h]
    exact ⟨scoreRelevance_frame _ _ _ _, scoreRelevance_length _ _ _ _⟩

/-! Helpers for the emptiness of a retrieval query. -/

theorem insertByRel_length (m : Memory) (l : List Memory) :
    (insertByRel m l).length = l.length + 1 := by
  induction l with
  | nil => rfl
  | cons x xs ih =>
    simp only [insertByRel]
    split
    · simp
    · simp [ih]

theorem sortByRel_length (l : List Memory) : (sortByRel l).length = l.length := by
  induction l with
  | nil => rfl
  | cons x xs ih =>
    show (insertByRel x (sortByRel xs)).length = xs.length + 1
    rw [insertByRel_length, ih]

theorem sortByRel_eq_nil_iff (l : List Memory) : sortByRel l = [] ↔ l = [] := by
  constructor
  · intro h
    have hl := congrArg List.length h
    rw [sortByRel_length] at hl
    exact List.length_eq_zero.mp hl
  · intro h
    subst h
    rfl

/-- Membership in the no-tag retrieval filter, as a proposition: the
document belongs to the conversation, is archived, and carries a relevance
score at least the floor (a missing score never passes). -/
theorem relFilter_none_eq_true_iff (cid : String) (minScore : Rat) (m : Memory) :
    relFilter cid none minScore m = true ↔
      (m.conversationId = some cid ∧ m.contextType = some ContextType.archived ∧
        ∃ r, m.relevanceScore = some r ∧ minScore ≤ r) := by
  unfold relFilter archFilter
  cases h : m.relevanceScore with
  | none => simp [h]
  | some r => simp [h, and_assoc]

/-- The retrieval used by createSummary returns nothing exactly when no
archived document of the conversation passes the 0.1 relevance floor. -/
theorem retrieve01_empty_iff (cid : String) (store : Store) :
    (retrieveContext cid none 0.1 10 store).isEmpty = true ↔
      ∀ m ∈ store, ¬ (m.conversationId = some cid ∧
        m.contextType = some ContextType.archived ∧
        ∃ r, m.relevanceScore = some r ∧ (0.1 : Rat) ≤ r) := by
  rw [List.isEmpty_iff]
  unfold retrieveContext
  rw [List.take_eq_nil_iff]
  have h10 : (10 : Nat) ≠ 0 := by norm_num
  simp only [h10, false_or]
  rw [sortByRel_eq_nil_iff, List.filter_eq_nil]
  constructor
  · intro h m hm
    rw [← relFilter_none_eq_true_iff cid 0.1 m]
    simpa using h m hm
  · intro h m hm
    simpa [relFilter_none_eq_true_iff cid 0.1 m] using h m hm

/-- C7: createSummary fails with NotFound exactly when the conversation id
is not in the conversation map (never initialised or removed); for a
present conversation it fails with NothingToSummarize exactly when no
archived item of the conversation passes the 0.1 relevance floor, where a
missing score never passes; on either failure the store is unchanged (no
summary record is created). -/
theorem c7_createSummary_errors (convs : String → Option ConversationState)
    (cid text llm : String) (uid : Option String) (now : Nat) (store : Store) :
    ((orchCreateSummary convs cid text llm uid now store).1 =
        Except.error SummErr.notFound ↔ convs cid = none) ∧
    (convs cid ≠ none →
      ((orchCreateSummary convs cid text llm uid now store).1 =
          Except.error SummErr.nothingToSummarize ↔
        ∀ m ∈ store, ¬ (m.conversationId = some cid ∧
          m.contextType = some ContextType.archived ∧
          ∃ r, m.relevanceScore = some r ∧ (0.1 : Rat) ≤ r))) ∧
    (∀ e, (orchCreateSummary convs cid text llm uid now store).1 = Except.error e →
      (orchCreateSummary convs cid text llm uid now store).2 = store) := by
  unfold orchCreateSummary
  cases hc : convs cid with
  | none => simp
  | some st =>
    simp only [List.isEmpty_iff]
    by_cases he : retrieveContext cid none 0.1 10 store = []
    · have hp : ∀ m ∈ store, ¬ (m.conversationId = some cid ∧
          m.contextType = some ContextType.archived ∧
          ∃ r, m.relevanceScore = some r ∧ (0.1 : Rat) ≤ r) := by
        rw [← retrieve01_empty_iff, List.isEmpty_iff]
        exact he
      simp [he, hp]
      intro m hm h1 h2 x hx
      have hmm := hp m hm
      push_neg at hmm
      exact hmm h1 h2 x hx
    · have hp : ¬ ∀ m ∈ store, ¬ (m.conversationId = some cid ∧
          m.contextType = some ContextType.archived ∧
          ∃ r, m.relevanceScore = some r ∧ (0.1 : Rat) ≤ r) := by
        rw [← retrieve01_empty_iff, List.isEmpty_iff]
        exact he
      simp [he, hp]
      push_neg at hp
      obtain ⟨m, hm, h1, h2, r, hr, hge⟩ := hp
      exact ⟨m, hm, h1, h2, r, hr, hge⟩

def c7wConvs : String → Option ConversationState :=
  fun c => if c = "c" then some (initState "c" "m" none 8000) else none

theorem c7_createSummary_errors_witness :
    ((orchCreateSummary c7wConvs "c" "text" "m" none 0 []).1 =
        Except.error SummErr.notFound ↔ c7wConvs "c" = none) ∧
    (c7wConvs "c" ≠ none →
      ((orchCreateSummary c7wConvs "c" "text" "m" none 0 []).1 =
          Except.error SummErr.nothingToSummarize ↔
        ∀ m ∈ ([] : Store), ¬ (m.conversationId = some "c" ∧
          m.contextType = some ContextType.archived ∧
          ∃ r, m.relevanceScore = some r ∧ (0.1 : Rat) ≤ r))) ∧
    (∀ e, (orchCreateSummary c7wConvs "c" "text" "m" none 0 []).1 = Except.error e →
      (orchCreateSummary c7wConvs "c" "text" "m" none 0 []).2 = []) :=
  c7_createSummary_errors c7wConvs "c" "text" "m" none 0 []

/-- C8: at or above the 0.8 usage ratio with fewer than 4 messages in the
window, the archive decision still has shouldArchive = true but selects an
empty batch, and executing it leaves both the window and the word count
unchanged. -/
theorem c8_empty_batch (hour now : Nat) (s : ConversationState) (store : Store)
    (hm : 0 < s.maxWordCount) (hr : (0.8 : Rat) ≤ usageRatio s)
    (hl : s.currentContext.length < 4) :
    (shouldArchive hour s).shouldArchive = true ∧
    (shouldArchive hour s).messagesToArchive = [] ∧
    (executeArchive (shouldArchive hour s) s store now).1.currentContext =
      s.currentContext ∧
    (executeArchive (shouldArchive hour s) s store now).1.totalWordCount =
      s.totalWordCount := by
  have hnot : ¬ usageRatio s < archiveThreshold := not_lt.mpr hr
  have hk : s.currentContext.length * 3 / 10 = 0 := by omega
  have hd : shouldArchive hour s =
      { shouldArchive := true
        messagesToArchive := []
        tags := generateTags [] hour
        reason := "Context usage at " ++ toString (usageRatio s * 100) ++
          "%, archiving oldest " ++ toString (List.length ([] : List String)) ++
          " messages" } := by
    unfold shouldArchive
    rw [if_neg hnot, hk]
    simp
  refine ⟨by rw [hd], by rw [hd], ?_, ?_⟩ <;>
    rw [hd] <;>
    unfold executeArchive <;>
    simp [wcSum]

def c8wState : ConversationState :=
  { conversationId := "c", currentContext := ["a b c d e f g h"],
    archivedContext := [], summaries := [], totalWordCount := 8,
    maxWordCount := 10, llm := "m", userId := none }

theorem c8_empty_batch_witness :
    0 < c8wState.maxWordCount ∧ (0.8 : Rat) ≤ usageRatio c8wState ∧
    c8wState.currentContext.length < 4 ∧
    ((shouldArchive 10 c8wState).shouldArchive = true ∧
      (shouldArchive 10 c8wState).messagesToArchive = [] ∧
      (executeArchive (shouldArchive 10 c8wState) c8wState [] 0).1.currentContext =
        c8wState.currentContext ∧
      (executeArchive (shouldArchive 10 c8wState) c8wState [] 0).1.totalWordCount =
        c8wState.totalWordCount) :=
  have h1 : 0 < c8wState.maxWordCount := by decide
  have h2 : (0.8 : Rat) ≤ usageRatio c8wState := by
    norm_num [usageRatio, c8wState]
  have h3 : c8wState.currentContext.length < 4 := by decide
  ⟨h1, h2, h3, c8_empty_batch 10 0 c8wState [] h1 h2 h3⟩

/-- Preservation of a property along any sequence of public operations. -/
theorem foldl_stepOp_preserve (P : ConversationState × Store → Prop)
    (hstep : ∀ p op, P p → P (stepOp p op)) :
    ∀ (ops : List Op) (p : ConversationState × Store), P p → P (ops.foldl stepOp p) := by
  intro ops
  induction ops with
  | nil => intro p hp; exact hp
  | cons o os ih => intro p hp; exact ih _ (hstep p o hp)

/-- Each public operation preserves the word-count accounting invariant. -/
theorem stepOp_wordCount (p : ConversationState × Store) (op : Op)
    (h : p.1.totalWordCount = (wcSum p.1.currentContext : Int)) :
    (stepOp p op).1.totalWordCount = (wcSum (stepOp p op).1.currentContext : Int) := by
  obtain ⟨s, st⟩ := p
  replace h : s.totalWordCount = (wcSum s.currentContext : Int) := h
  cases op with
  | initConv => exact h
  | addMsg msg hour =>
    dsimp only [stepOp]
    simp [wcSum_append, wcSum_cons, wcSum_nil, h]
  | execArchive hour now =>
    dsimp only [stepOp]
    by_cases hc : usageRatio s < archiveThreshold
    · have hd : shouldArchive hour s =
          { shouldArchive := false
            messagesToArchive := []
            tags := []
            reason := "Below archive threshold" } := by
        unfold shouldArchive
        rw [if_pos hc]
      rw [hd]
      unfold executeArchive
      simpa using h
    · have hd : shouldArchive hour s =
          { shouldArchive := true
            messagesToArchive := s.currentContext.take (s.currentContext.length * 3 / 10)
            tags := generateTags (s.currentContext.take (s.currentContext.length * 3 / 10)) hour
            reason := "Context usage at " ++ toString (usageRatio s * 100) ++
              "%, archiving oldest " ++
              toString (s.currentContext.take (s.currentContext.length * 3 / 10)).length ++
              " messages" } := by
        unfold shouldArchive
        rw [if_neg hc]
      rw [hd]
      unfold executeArchive
      simp only [↓reduceIte]
      rw [drop_take_length]
      have hsum := wcSum_take_add_drop s.currentContext (s.currentContext.length * 3 / 10)
      simp only [] at h ⊢
      omega
  | execRetrieve =>
    dsimp only [stepOp]
    unfold executeRetrieval
    split
    · rw [foldl_pushRetrieved]
      dsimp only
      rw [wcSum_append, wcSum_reverse]
      omega
    · exact h

/-- C1: along every sequence of public operations on one conversation
(initialize, addMessage, executeArchive and executeRetrieval applied to the
decision computed from the state they are applied to, with no
interleaving), after each operation totalWordCount equals the sum of the
word counts of the active window entries, counted by the same
whitespace-split counting used on insertion. -/
theorem c1_wordcount_invariant (cid llm : String) (uid : Option String)
    (maxWords : Nat) (ops : List Op) (store0 : Store) :
    (runOps cid llm uid maxWords ops store0).1.totalWordCount =
      (wcSum (runOps cid llm uid maxWords ops store0).1.currentContext : Int) := by
  unfold runOps
  exact foldl_stepOp_preserve
    (fun p => p.1.totalWordCount = (wcSum p.1.currentContext : Int))
    stepOp_wordCount ops _ (by simp [initState, wcSum])

def c9Msg : String := jsJoin " " (List.replicate 85 "w")

def c9Run : ConversationState × Store :=
  runOps "c" "m" none 100 [Op.addMsg c9Msg 10] []

def c9State : ConversationState :=
  { conversationId := "c", currentContext := [c9Msg],
    archivedContext := [], summaries := [], totalWordCount := 85,
    maxWordCount := 100, llm := "m", userId := none }

set_option maxRecDepth 8000 in
/-- C9 fails on the code: with capacity 100 and a single addMessage call
accumulating 85 words, the archive decision has shouldArchive = true but
floor(0.3 x 1) = 0 messages are evicted, so after executeArchive the usage
ratio is still 0.85 — it does NOT drop below 0.8 for every distribution of
the 85 words. -/
theorem c9_counterexample :
    (shouldArchive 10 c9Run.1).shouldArchive = true ∧
    ¬ usageRatio (executeArchive (shouldArchive 10 c9Run.1) c9Run.1 c9Run.2 0).1 <
        (0.8 : Rat) := by
  have h1 : c9Run.1 = c9State := by decide
  have hge : ¬ usageRatio c9State < archiveThreshold := by
    norm_num [usageRatio, c9State, archiveThreshold]
  have hbatch : c9State.currentContext.take (c9State.currentContext.length * 3 / 10) =
      ([] : List String) := by decide
  constructor
  · rw [h1]
    unfold shouldArchive
    rw [if_neg hge]
  · rw [h1]
    unfold shouldArchive
    rw [if_neg hge]
    unfold executeArchive
    simp only [↓reduceIte, hbatch]
    norm_num [usageRatio, wcSum, c9State]

/-- C9 amended: in the capacity-100, 85-word scenario the archive decision
always has shouldArchive = true, and executing it brings the usage ratio
strictly below 0.8 exactly when the evicted oldest floor(0.3 x length)
messages together carry more than 5 words — not regardless of how the 85
words are distributed across messages. -/
theorem c9_amended_ratio_iff (hour now : Nat) (s : ConversationState)
    (store : Store) (hw : s.totalWordCount = 85) (hm : s.maxWordCount = 100) :
    (shouldArchive hour s).shouldArchive = true ∧
    (usageRatio (executeArchive (shouldArchive hour s) s store now).1 < (0.8 : Rat) ↔
      5 < wcSum (shouldArchive hour s).messagesToArchive) := by
  have hge : ¬ usageRatio s < archiveThreshold := by
    unfold usageRatio archiveThreshold
    rw [hw, hm]
    norm_num
  constructor
  · unfold shouldArchive
    rw [if_neg hge]
  · unfold shouldArchive
    rw [if_neg hge]
    unfold executeArchive
    simp only [↓reduceIte]
    unfold usageRatio
    dsimp only
    rw [hw, hm]
    rw [div_lt_iff (by norm_num : (0 : Rat) < (100 : Nat))]
    push_cast
    constructor
    · intro hlt
      have h5 : (5 : Rat) <
          (wcSum (s.currentContext.take (s.currentContext.length * 3 / 10)) : Rat) := by
        linarith
      exact_mod_cast h5
    · intro hgt
      have h5 : (5 : Rat) <
          (wcSum (s.currentContext.take (s.currentContext.length * 3 / 10)) : Rat) := by
        exact_mod_cast hgt
      linarith

def c9wState : ConversationState :=
  { conversationId := "c",
    currentContext := ["a", "b", "c", "d", "e", "f", "g", "h", "i", "j"],
    archivedContext := [], summaries := [], totalWordCount := 85,
    maxWordCount := 100, llm := "m", userId := none }

theorem c9_amended_ratio_iff_witness :
    c9wState.totalWordCount = 85 ∧ c9wState.maxWordCount = 100 ∧
    ((shouldArchive 10 c9wState).shouldArchive = true ∧
      (usageRatio (executeArchive (shouldArchive 10 c9wState) c9wState [] 0).1 <
          (0.8 : Rat) ↔
        5 < wcSum (shouldArchive 10 c9wState).messagesToArchive)) :=
  ⟨rfl, rfl, c9_amended_ratio_iff 10 0 c9wState [] rfl rfl⟩

def c10S : ConversationState :=
  { conversationId := "c", currentContext := ["a b", "c d", "e f", "g h"],
    archivedContext := [], summaries := [], totalWordCount := 8,
    maxWordCount := 10, llm := "m", userId := none }

/-- The archive decision computed on `c10S` (usage ratio 0.8, four
messages, so the oldest one is selected). -/
def c10D : ArchiveDecision :=
  { shouldArchive := true
    messagesToArchive := c10S.currentContext.take (c10S.currentContext.length * 3 / 10)
    tags := generateTags
      (c10S.currentContext.take (c10S.currentContext.length * 3 / 10)) 10
    reason := "Context usage at " ++ toString (usageRatio c10S * 100) ++
      "%, archiving oldest " ++
      toString (c10S.currentContext.take (c10S.currentContext.length * 3 / 10)).length ++
      " messages" }

def c10After : ConversationState :=
  { conversationId := "c", currentContext := ["c d", "e f", "g h"],
    archivedContext := [], summaries := [], totalWordCount := 6,
    maxWordCount := 10, llm := "m", userId := none }

def c10Doc : Memory :=
  { id := some 0, memories := ["a b"], timestamp := 0, llm := "m",
    userId := none, conversationId := some "c",
    contextType := some ContextType.archived, tags := some ["morning"],
    messageIndex := some 0, wordCount := some 2 }

/-- C10 fails on the code: executeArchive really persists the evicted
message to the store, yet it never appends to the in-memory
archivedContext, which stays empty — so archiving via executeArchive does
not move getConversationStatus towards the consider-summarizing advisory. -/
theorem c10_counterexample :
    (shouldArchive 10 c10S).shouldArchive = true ∧
    (shouldArchive 10 c10S).messagesToArchive = ["a b"] ∧
    (executeArchive (shouldArchive 10 c10S) c10S [] 0).2 = [c10Doc] ∧
    (executeArchive (shouldArchive 10 c10S) c10S [] 0).1.archivedContext = [] ∧
    recSummaries ∉ getConversationStatus (executeArchive (shouldArchive 10 c10S) c10S [] 0).1 := by
  have hge : ¬ usageRatio c10S < archiveThreshold := by
    norm_num [usageRatio, c10S, archiveThreshold]
  have hd : shouldArchive 10 c10S = c10D := by
    unfold shouldArchive c10D
    rw [if_neg hge]
  have hx : executeArchive c10D c10S [] 0 = (c10After, [c10Doc]) := by decide
  have hstat : getConversationStatus c10After = [] := by
    norm_num [getConversationStatus, usageRatio, c10After]
  rw [hd, hx]
  refine ⟨by decide, by decide, rfl, rfl, ?_⟩
  rw [hstat]
  decide

/-- Each public operation leaves the in-memory archivedContext untouched. -/
theorem stepOp_archivedContext (p : ConversationState × Store) (op : Op)
    (h : p.1.archivedContext = []) : (stepOp p op).1.archivedContext = [] := by
  obtain ⟨s, st⟩ := p
  replace h : s.archivedContext = [] := h
  cases op with
  | initConv => exact h
  | addMsg msg hour => exact h
  | execArchive hour now =>
    dsimp only [stepOp]
    unfold executeArchive
    split
    · exact h
    · exact h
  | execRetrieve =>
    dsimp only [stepOp]
    unfold executeRetrieval
    split
    · rw [foldl_pushRetrieved]
      exact h
    · exact h

/-- C10 amended: whenever the in-memory archived count exceeds 20,
getConversationStatus does include the consider-summarizing advisory,
independently of the usage-ratio band; however executeArchive never
appends to state.archivedContext, so along every sequence of public
operations the in-memory archivedContext stays empty and the advisory is
not reachable through executeArchive. -/
theorem c10_amended_advisory (s : ConversationState)
    (hs : 20 < s.archivedContext.length) (cid llm : String)
    (uid : Option String) (maxWords : Nat) (ops : List Op) (store0 : Store) :
    recSummaries ∈ getConversationStatus s ∧
    (runOps cid llm uid maxWords ops store0).1.archivedContext = [] := by
  constructor
  · unfold getConversationStatus
    simp [hs]
  · unfold runOps
    exact foldl_stepOp_preserve (fun p => p.1.archivedContext = [])
      stepOp_archivedContext ops _ rfl

def c10wMem : Memory := { memories := ["x"] }

def c10wState : ConversationState :=
  { conversationId := "c", currentContext := [],
    archivedContext := List.replicate 21 c10wMem, summaries := [],
    totalWordCount := 0, maxWordCount := 10, llm := "m", userId := none }

theorem c10_amended_advisory_witness :
    20 < c10wState.archivedContext.length ∧
    (recSummaries ∈ getConversationStatus c10wState ∧
      (runOps "c" "m" none 10 [Op.initConv] []).1.archivedContext = []) :=
  ⟨by decide,
    c10_amended_advisory c10wState (by decide) "c" "m" none 10 [Op.initConv] []⟩
